import Mathlib

/-!
Verification development for the synthesis-scraper pipeline.

The Python sources (`src/agents/chemistry_agent.py`, `src/extractor.py`,
`src/main.py`) are shallowly embedded below: Python floats are modelled as
rationals (`ℚ`), Python dicts carrying the documented record fields become
structures with `Option` fields for keys that may be absent, and the two
external HTTP services (the LLM endpoint and PubChem) are modelled as
oracles passed to the embedded functions.
-/

namespace Scraper

/-! ## String helpers modelling Python primitives -/

/-- Model of Python `str.lower()` restricted to ASCII letters and the
Latin-1 supplement uppercase range (which covers every character that
occurs in the repository's unit tokens, including `Â` U+00C2). -/
def pyLowerChar (c : Char) : Char :=
  if 'A' ≤ c ∧ c ≤ 'Z' then Char.ofNat (c.toNat + 32)
  else if 'À' ≤ c ∧ c ≤ 'Þ' ∧ c ≠ '×' then Char.ofNat (c.toNat + 32)
  else c

def pyLowerStr (s : String) : String := String.mk (s.toList.map pyLowerChar)

/-- Python whitespace characters recognised by `str.strip()`. -/
def isPyWs (c : Char) : Bool :=
  c == ' ' || c == '\t' || c == '\n' || c == '\r' || c == '\x0b' || c == '\x0c'

def pyStrip (s : String) : String :=
  String.mk (((s.toList.dropWhile isPyWs).reverse.dropWhile isPyWs).reverse)

/-- `hasPre pat l` holds when `pat` begins `l` (character lists). -/
def hasPre : List Char → List Char → Bool
  | [], _ => true
  | _ :: _, [] => false
  | p :: ps, c :: cs => p == c && hasPre ps cs

def hasSubAux (pat : List Char) : List Char → Bool
  | [] => pat.isEmpty
  | c :: cs => hasPre pat (c :: cs) || hasSubAux pat cs

/-- Model of Python's substring test `pat in s`. -/
def strHasSub (pat s : String) : Bool := hasSubAux pat.toList s.toList

/-- Model of Python `s.startswith(p)`. -/
def pyStartsWith (p s : String) : Bool := hasPre p.toList s.toList

/-- Model of Python `s.split(sep)` for a one-character separator (the
list of runs between occurrences of `c`, keeping empty runs). -/
def splitOnChar (c : Char) : List Char → List (List Char)
  | [] => [[]]
  | x :: xs =>
      let r := splitOnChar c xs
      if x = c then [] :: r
      else
        match r with
        | h :: t => (x :: h) :: t
        | [] => [[x]]

def pySplit (s : String) (c : Char) : List String :=
  (splitOnChar c s.toList).map String.mk

/-- Numeric value of a digit list (most significant first). -/
def digitsVal (cs : List Char) : ℕ :=
  cs.foldl (fun a c => a * 10 + (c.toNat - 48)) 0

/-- Model of Python `float(s)` for strings over the alphabet kept by
`_parse_value`'s character filter (digits, `.`, `-`): an optional leading
minus sign followed by digits with at most one decimal point and at least
one digit.  Returns `none` where Python raises `ValueError`. -/
def pyFloatCore (cs : List Char) : Option ℚ :=
  let ip := cs.takeWhile Char.isDigit
  let rest := cs.drop ip.length
  match rest with
  | [] => if ip.isEmpty then none else some (digitsVal ip)
  | '.' :: fp =>
      if fp.all Char.isDigit && !(ip.isEmpty && fp.isEmpty) then
        some ((digitsVal ip : ℚ) + (digitsVal fp : ℚ) / (10 ^ fp.length))
      else none
  | _ => none

def pyFloat (s : String) : Option ℚ :=
  match s.toList with
  | '-' :: rest => (pyFloatCore rest).map Neg.neg
  | cs => pyFloatCore cs

/-- Round half to even to an integer (Python's `round` tie rule). -/
def rhe (q : ℚ) : ℤ :=
  let f := ⌊q⌋
  let r := q - (f : ℚ)
  if r < 1/2 then f
  else if 1/2 < r then f + 1
  else if f % 2 = 0 then f else f + 1

/-- Model of Python `round(value, 2)`. -/
def round2 (q : ℚ) : ℚ := (rhe (q * 100) : ℚ) / 100

/-- Model of Python's `f"{val}"` rendering of a float whose value is an
exact multiple of 1/100 (every value reaching the validity check is a
`round2` output, hence of this form). -/
def fmtVal (q : ℚ) : String :=
  let neg := q < 0
  let a := if neg then -q else q
  let ip : ℕ := (⌊a⌋).toNat
  let hund : ℕ := (⌊(a - (ip : ℚ)) * 100⌋).toNat
  let frac :=
    if hund = 0 then ".0"
    else if hund % 10 = 0 then "." ++ toString (hund / 10)
    else if hund < 10 then ".0" ++ toString hund
    else "." ++ toString hund
  (if neg then "-" else "") ++ toString ip ++ frac

/-! ## ChemistryAgent: data model -/

/-- A raw condition dict as produced by the extraction prompt schema:
keys `parameter`, `value`, `unit`, all strings (`_normalize_condition`
applies `str(...)` to the value before parsing). -/
structure RawCond where
  parameter : String
  value : String
  unit : String
deriving DecidableEq, Repr

/-- Result of `_normalize_condition`: either the normalized five-key dict
or (on a `ValueError` from `_parse_value`) the original dict unchanged. -/
inductive NCond where
  | norm (parameter : String) (value : ℚ) (unit : String)
      (originalValue originalUnit : String)
  | orig (c : RawCond)
deriving DecidableEq, Repr

/-- The `unit_map` table from `ChemistryAgent.__init__`, in source order.
The third temperature key is the literal mojibake `"Â°c"` (U+00C2 U+00B0
then `c`) present in the source file, written here with escapes. -/
def unitMapList : List (String × String) :=
  [("c", "celsius"), ("celsius", "celsius"), ("Â°c", "celsius"),
   ("k", "kelvin"), ("kelvin", "kelvin"),
   ("f", "fahrenheit"), ("fahrenheit", "fahrenheit"),
   ("h", "hours"), ("hr", "hours"), ("hours", "hours"),
   ("min", "minutes"), ("m", "minutes"), ("minutes", "minutes"),
   ("s", "seconds"), ("sec", "seconds"), ("seconds", "seconds"),
   ("d", "days"), ("days", "days")]

/-- `self.unit_map.get(unit_str, unit_str)`. -/
def unitMapGet (u : String) : String := (unitMapList.lookup u).getD u

/-- `ChemistryAgent._parse_value`: strip every character except digits,
`.`, `-`; average a two-part hyphen range; otherwise parse a single float.
`none` models a raised `ValueError`. -/
def cleanVal (s : String) : String :=
  String.mk (s.toList.filter (fun c => c.isDigit || c == '.' || c == '-'))

def parseValue (s : String) : Option ℚ :=
  let clean := cleanVal s
  if strHasSub "-" clean && !pyStartsWith "-" clean then
    match pySplit clean '-' with
    | [a, b] =>
        if a ≠ "" && b ≠ "" then
          match pyFloat a, pyFloat b with
          | some qa, some qb => some ((qa + qb) / 2)
          | _, _ => none
        else pyFloat clean
    | _ => pyFloat clean
  else pyFloat clean

/-- `ChemistryAgent._normalize_condition`. -/
def normalizeCondition (c : RawCond) : NCond :=
  let param := pyLowerStr c.parameter
  let valStr := c.value
  let unitStr := pyStrip (pyLowerStr c.unit)
  match parseValue valStr with
  | none => .orig c
  | some value =>
      let stdUnit := unitMapGet unitStr
      let (value, stdUnit) :=
        if strHasSub "temp" param then
          if stdUnit = "celsius" then (value + 27315/100, "K")
          else if stdUnit = "fahrenheit" then ((value - 32) * 5 / 9 + 27315/100, "K")
          else if stdUnit = "kelvin" then (value, "K")
          else (value, stdUnit)
        else if strHasSub "time" param || strHasSub "duration" param then
          if stdUnit = "hours" then (value * 60, "min")
          else if stdUnit = "seconds" then (value / 60, "min")
          else if stdUnit = "days" then (value * 1440, "min")
          else if stdUnit = "minutes" then (value, "min")
          else (value, stdUnit)
        else (value, stdUnit)
      .norm param (round2 value) stdUnit valStr unitStr

/-- `ChemistryAgent._check_physical_validity`.  On a passed-through
original dict the value is a string, so Python's `isinstance(val, (int,
float))` guards are false and the check always succeeds. -/
def checkPhysicalValidity (n : NCond) : Bool × String :=
  match n with
  | .orig _ => (true, "")
  | .norm param val unit _ _ =>
      if strHasSub "temp" param = true ∧ unit = "K" ∧ val < 0 then
        (false, "Impossible Temperature: " ++ fmtVal val ++ " K")
      else if strHasSub "temp" param = true ∧ unit = "K" ∧ 4000 < val then
        (false, "Suspiciously High Temperature: " ++ fmtVal val ++ " K")
      else if (strHasSub "time" param = true ∨ strHasSub "duration" param = true)
          ∧ val < 0 then
        (false, "Impossible Time: " ++ fmtVal val ++ " " ++ unit)
      else (true, "")

/-- `ChemistryAgent._clean_chemical_name`. -/
def aliasList : List (String × String) :=
  [("2-meim", "2-methylimidazole"), ("h2o", "water"),
   ("etoh", "ethanol"), ("meoh", "methanol")]

def cleanChemicalName (name : String) : String :=
  let name := pyStrip name
  (aliasList.lookup (pyLowerStr name)).getD name

/-! ## ChemistryAgent: records and pipeline stages -/

/-- A precursor dict.  `Option` fields model keys that may be absent. -/
structure Precursor where
  name : Option String := none
  amount : Option String := none
  unit : Option String := none
  pubchem_cid : Option Int := none
  formula : Option String := none
  mw : Option String := none
  verified : Option Bool := none
deriving DecidableEq, Repr

/-- A synthesis record as handed to `ChemistryAgent.analyze` (raw LLM
output shape).  -/
structure RawRecord where
  target_material : Option String := none
  method_type : Option String := none
  description : Option String := none
  conditions : Option (List RawCond) := none
  precursors : Option (List Precursor) := none
  warnings : List String := []
deriving DecidableEq, Repr

/-- The record after `_normalize_data` (conditions normalized, warnings
and `physics_check_passed` present). -/
structure NormRecord where
  target_material : Option String := none
  method_type : Option String := none
  description : Option String := none
  conditions : Option (List NCond) := none
  precursors : Option (List Precursor) := none
  warnings : List String := []
  physics_check_passed : Bool := true
  chemistry_valid : Option Bool := none
  chemistry_reason : Option String := none
deriving DecidableEq, Repr

/-- The loop body of `_normalize_data` over the conditions list:
accumulates the normalized conditions, the physics flag and the appended
warnings. -/
def normalizeConds : List RawCond → List NCond × Bool × List String
  | [] => ([], true, [])
  | c :: cs =>
      let n := normalizeCondition c
      let (ns, ok, ws) := normalizeConds cs
      let (chk, w) := checkPhysicalValidity n
      if chk then (n :: ns, ok, ws) else (n :: ns, false, w :: ws)

/-- `ChemistryAgent._normalize_data`. -/
def normalizeData (r : RawRecord) : NormRecord :=
  let (conds, physics, warns) :=
    match r.conditions with
    | none => (none, true, [])
    | some cs =>
        let (ns, ok, ws) := normalizeConds cs
        (some ns, ok, ws)
  let precs := r.precursors.map (fun ps =>
    ps.map (fun p => { p with name := some (cleanChemicalName (p.name.getD "")) }))
  { target_material := r.target_material
    method_type := r.method_type
    description := r.description
    conditions := conds
    precursors := precs
    warnings := warns
    physics_check_passed := physics }

/-- PubChem lookup result (`_search_pubchem` on success). -/
structure PubChemData where
  cid : Option Int := none
  formula : Option String := none
  molecular_weight : Option String := none
deriving DecidableEq, Repr

/-- `ChemistryAgent._validate_chemicals`, with the PubChem HTTP lookup
modelled as an oracle from names to an optional result (`none` covering
not-found, non-200 and timeouts alike, exactly the cases in which
`_search_pubchem` returns `None`). -/
def validateChemicals (pubchem : String → Option PubChemData)
    (d : NormRecord) : NormRecord :=
  match d.precursors with
  | none => d
  | some ps =>
      let step := fun (acc : List Precursor × List String) (p : Precursor) =>
        match p.name with
        | none => (acc.1 ++ [p], acc.2)
        | some name =>
            if name = "" then (acc.1 ++ [p], acc.2)
            else match pubchem name with
              | some pd =>
                  let p2 := { p with
                    pubchem_cid := pd.cid
                    formula := pd.formula
                    mw := pd.molecular_weight
                    verified := some true }
                  (acc.1 ++ [p2], acc.2)
              | none =>
                  (acc.1 ++ [{ p with verified := some false }],
                   acc.2 ++ ["Chemical not found in PubChem: " ++ name])
      let acc := ps.foldl step ([], [])
      { d with precursors := some acc.1, warnings := d.warnings ++ acc.2 }

/-- The JSON object parsed from the validation LLM's response
(`llm_data` in `_validate_reaction_logic`). -/
structure LlmData where
  valid : Option Bool := none
  reason : Option String := none
  missing_elements : Option (List String) := none
deriving DecidableEq, Repr

/-- Outcome of the reaction-validation LLM call: an exception anywhere in
the `try` block, a non-200 status (silently skipped), or a parsed body. -/
inductive LlmOutcome where
  | exc
  | non200
  | ok (d : LlmData)
deriving DecidableEq, Repr

/-- Python `repr` of a list of strings, as rendered into the
"Missing Elements" warning by the f-string. -/
def fmtPyStrList (xs : List String) : String :=
  "[" ++ String.intercalate ", " (xs.map (fun s => "'" ++ s ++ "'")) ++ "]"

/-- `ChemistryAgent._validate_reaction_logic`.  Returns `none` when the
prompt construction raises an uncaught `TypeError` (a precursor whose
`name` key is absent makes `", ".join(precursors)` join a `None`). -/
def validateReactionLogic (llm : LlmOutcome) (d : NormRecord) :
    Option NormRecord :=
  let target := d.target_material.getD "Unknown"
  let precNames := (d.precursors.getD []).map (·.name)
  if precNames.isEmpty || target = "Unknown" then some d
  else if precNames.any (·.isNone) then none
  else
    match llm with
    | .exc => some d
    | .non200 => some d
    | .ok ld =>
        let valid := ld.valid.getD false
        let d := { d with chemistry_valid := some valid,
                          chemistry_reason := some (ld.reason.getD "Unknown") }
        let d :=
          if valid = false then
            { d with warnings := d.warnings ++
                ["Chemical Logic Error: " ++
                  (match ld.reason with | some s => s | none => "None")] }
          else d
        let d :=
          if ld.missing_elements.getD [] ≠ [] then
            { d with warnings := d.warnings ++
                ["Missing Elements: " ++ fmtPyStrList (ld.missing_elements.getD [])] }
          else d
        some d

/-- `ChemistryAgent.analyze`: normalize, then validate chemicals, then
validate reaction logic. -/
def analyze (pubchem : String → Option PubChemData) (llm : LlmOutcome)
    (r : RawRecord) : Option NormRecord :=
  validateReactionLogic llm (validateChemicals pubchem (normalizeData r))

/-! ## JSON values and a model of Python's `json.loads` -/

inductive Json where
  | null
  | bool (b : Bool)
  | num (q : ℚ)
  | str (s : String)
  | arr (xs : List Json)
  | obj (kvs : List (String × Json))
deriving Repr

def jsonWs (c : Char) : Bool :=
  c == ' ' || c == '\t' || c == '\n' || c == '\r'

def skipWs (cs : List Char) : List Char := cs.dropWhile jsonWs

def hexVal (c : Char) : Option ℕ :=
  if '0' ≤ c ∧ c ≤ '9' then some (c.toNat - 48)
  else if 'a' ≤ c ∧ c ≤ 'f' then some (c.toNat - 87)
  else if 'A' ≤ c ∧ c ≤ 'F' then some (c.toNat - 55)
  else none

/-- Parse the body of a JSON string literal (opening quote consumed). -/
def parseStrChars : List Char → Option (List Char × List Char)
  | [] => none
  | '"' :: r => some ([], r)
  | '\\' :: e :: r =>
      match e with
      | '"' => (parseStrChars r).map (fun (s, rr) => ('"' :: s, rr))
      | '\\' => (parseStrChars r).map (fun (s, rr) => ('\\' :: s, rr))
      | '/' => (parseStrChars r).map (fun (s, rr) => ('/' :: s, rr))
      | 'b' => (parseStrChars r).map (fun (s, rr) => ('\x08' :: s, rr))
      | 'f' => (parseStrChars r).map (fun (s, rr) => ('\x0c' :: s, rr))
      | 'n' => (parseStrChars r).map (fun (s, rr) => ('\n' :: s, rr))
      | 'r' => (parseStrChars r).map (fun (s, rr) => ('\r' :: s, rr))
      | 't' => (parseStrChars r).map (fun (s, rr) => ('\t' :: s, rr))
      | 'u' =>
          match r with
          | a :: b :: c :: d :: rr =>
              match hexVal a, hexVal b, hexVal c, hexVal d with
              | some x, some y, some z, some w =>
                  let n := ((x * 16 + y) * 16 + z) * 16 + w
                  if n.isValidChar then
                    (parseStrChars rr).map (fun (s, r2) => (Char.ofNat n :: s, r2))
                  else none
              | _, _, _, _ => none
          | _ => none
      | _ => none
  | c :: r => (parseStrChars r).map (fun (s, rr) => (c :: s, rr))

def parseJStr (cs : List Char) : Option (String × List Char) :=
  (parseStrChars cs).map (fun (s, r) => (String.mk s, r))

/-- JSON number grammar: optional minus, an integer part without leading
zeros, optional fraction, optional exponent. -/
def parseJNum (cs : List Char) : Option (ℚ × List Char) :=
  let (sgn, cs) := match cs with
    | '-' :: r => ((-1 : ℚ), r)
    | r => ((1 : ℚ), r)
  let ip := cs.takeWhile Char.isDigit
  let cs1 := cs.drop ip.length
  if ip.isEmpty then none
  else if ip.length > 1 ∧ ip.headD '0' = '0' then none
  else
    let intPart : ℚ := digitsVal ip
    let (fracPart, cs2) : ℚ × List Char :=
      match cs1 with
      | '.' :: r =>
          let fp := r.takeWhile Char.isDigit
          ((digitsVal fp : ℚ) / 10 ^ fp.length, r.drop fp.length)
      | _ => (0, cs1)
    let fracOk := match cs1 with
      | '.' :: r => !(r.takeWhile Char.isDigit).isEmpty
      | _ => true
    let (expOk, expVal, cs3) : Bool × ℤ × List Char :=
      match cs2 with
      | 'e' :: r | 'E' :: r =>
          let (es, r) := match r with
            | '+' :: rr => ((1 : ℤ), rr)
            | '-' :: rr => ((-1 : ℤ), rr)
            | rr => ((1 : ℤ), rr)
          let ed := r.takeWhile Char.isDigit
          (!ed.isEmpty, es * (digitsVal ed : ℤ), r.drop ed.length)
      | _ => (true, 0, cs2)
    if fracOk && expOk then
      some (sgn * (intPart + fracPart) * (10 : ℚ) ^ expVal, cs3)
    else none

mutual

/-- Fuel-indexed JSON value parser (a model of `json.loads`). -/
def parseJVal : ℕ → List Char → Option (Json × List Char)
  | 0, _ => none
  | Nat.succ f, l =>
      match skipWs l with
      | 'n' :: 'u' :: 'l' :: 'l' :: r => some (.null, r)
      | 't' :: 'r' :: 'u' :: 'e' :: r => some (.bool true, r)
      | 'f' :: 'a' :: 'l' :: 's' :: 'e' :: r => some (.bool false, r)
      | '"' :: r => (parseJStr r).map (fun (s, rr) => (.str s, rr))
      | '[' :: r =>
          (match skipWs r with
           | ']' :: rr => some (.arr [], rr)
           | rr => (parseJElems f rr).map (fun (xs, r2) => (.arr xs, r2)))
      | '\x7b' :: r =>
          (match skipWs r with
           | '\x7d' :: rr => some (.obj [], rr)
           | rr => (parseJMembers f rr).map (fun (kvs, r2) => (.obj kvs, r2)))
      | l' => (parseJNum l').map (fun (q, r) => (.num q, r))

/-- One-or-more comma-separated array elements, then `]`. -/
def parseJElems : ℕ → List Char → Option (List Json × List Char)
  | 0, _ => none
  | Nat.succ f, l =>
      match parseJVal f l with
      | none => none
      | some (v, r) =>
          match skipWs r with
          | ',' :: rr =>
              (parseJElems f rr).map (fun (xs, r2) => (v :: xs, r2))
          | ']' :: rr => some ([v], rr)
          | _ => none

/-- One-or-more `"key": value` members, then the closing brace. -/
def parseJMembers : ℕ → List Char → Option (List (String × Json) × List Char)
  | 0, _ => none
  | Nat.succ f, l =>
      match skipWs l with
      | '"' :: r =>
          match parseJStr r with
          | none => none
          | some (k, r1) =>
              match skipWs r1 with
              | ':' :: r2 =>
                  (match parseJVal f r2 with
                   | none => none
                   | some (v, r3) =>
                       match skipWs r3 with
                       | ',' :: r4 =>
                           (parseJMembers f r4).map
                             (fun (kvs, r5) => ((k, v) :: kvs, r5))
                       | '\x7d' :: r4 => some ([(k, v)], r4)
                       | _ => none)
              | _ => none
      | _ => none

end

/-- `json.loads`: parse one value, then require only whitespace after it. -/
def jsonLoads (s : String) : Option Json :=
  match parseJVal (s.length + 1) s.toList with
  | some (v, r) => if (skipWs r).isEmpty then some v else none
  | none => none

/-! ## Inference Gateway (`extractor._extract_llm`) -/

/-- The prefix of `l` up to and including the last occurrence of `c`
(empty when `c` does not occur). -/
def takeToLast (c : Char) (l : List Char) : List Char :=
  ((l.reverse.dropWhile (fun x => x ≠ c))).reverse

/-- One anchored match attempt of the regex `\x7b.*\x7d` (DOTALL) at the
head of `l`: the head must be `\x7b`, and the greedy `.*` backtracks to
the last `\x7d` of the remainder. -/
def matchBraceAt (l : List Char) : Option (List Char) :=
  match l with
  | [] => none
  | c :: rest =>
      if c = '\x7b' ∧ rest.contains '\x7d' = true then
        some ('\x7b' :: takeToLast '\x7d' rest)
      else none

/-- `re.search(r'\x7b.*\x7d', text, re.DOTALL)`: try each start position
left to right, returning the first successful anchored match. -/
def reSearchBrace : List Char → Option (List Char)
  | [] => none
  | c :: cs =>
      match matchBraceAt (c :: cs) with
      | some m => some m
      | none => reSearchBrace cs

/-- The JSON-span recovery of `_extract_llm`: locate the regex match in
the response text and `json.loads` it. -/
def extractJson (responseText : String) : Option Json :=
  match reSearchBrace responseText.toList with
  | some span => jsonLoads (String.mk span)
  | none => none

/-- One Gateway attempt as seen by `_extract_llm`: either the HTTP layer
fails (connection error, timeout, or `raise_for_status` on a non-2xx
status) or a 2xx response arrives whose `response` field is the given
text (`result.get("response", "")`). -/
inductive LlmAttempt where
  | transportFail
  | ok (responseText : String)
deriving DecidableEq, Repr

/-- What one attempt contributes inside the retry loop: a parsed JSON
object, the no-JSON-span case (`else` branch: retry without sleeping), or
an exception (transport failure, or `json.loads` raising on a found span
— both land in the `except` branch, which sleeps before retrying). -/
inductive StepResult where
  | success (j : Json)
  | noJson
  | err
deriving Repr

def attemptStep (a : LlmAttempt) : StepResult :=
  match a with
  | .transportFail => .err
  | .ok t =>
      match reSearchBrace t.toList with
      | none => .noJson
      | some span =>
          match jsonLoads (String.mk span) with
          | some j => .success j
          | none => .err

/-- `return \x7b\x7d`: the empty dict handed back after exhaustion. -/
def emptyObj : Json := .obj []

/-- Observable outcome of the retry loop of `_extract_llm`: the returned
value, the number of HTTP requests issued, and the number of
`time.sleep(delay)` calls made. -/
structure LoopOut where
  result : Json
  requests : ℕ
  sleeps : ℕ

/-- The retry loop `for attempt in range(attempts)` of `_extract_llm`,
from attempt index `i`, with the service's behaviour on attempt `k`
given by `oracle k`.  `fuel` bounds the remaining iterations (the loop
is entered with `fuel = attempts`, and `fuel ≥ attempts - i` is an
invariant, so the fuel-exhausted case coincides with the loop's normal
exit). -/
def runAttempts (oracle : ℕ → LlmAttempt) (attempts : ℕ) :
    ℕ → ℕ → ℕ → ℕ → LoopOut
  | 0, _, reqs, slps => ⟨emptyObj, reqs, slps⟩
  | fuel + 1, i, reqs, slps =>
      if i < attempts then
        match attemptStep (oracle i) with
        | .success j => ⟨j, reqs + 1, slps⟩
        | .noJson =>
            if i < attempts - 1 then
              runAttempts oracle attempts fuel (i + 1) (reqs + 1) slps
            else ⟨emptyObj, reqs + 1, slps⟩
        | .err =>
            if i < attempts - 1 then
              runAttempts oracle attempts fuel (i + 1) (reqs + 1) (slps + 1)
            else ⟨emptyObj, reqs + 1, slps⟩
      else ⟨emptyObj, reqs, slps⟩

/-- `_extract_llm`'s full retry behaviour (text-independent part). -/
def extractLlmLoop (oracle : ℕ → LlmAttempt) (attempts : ℕ) : LoopOut :=
  runAttempts oracle attempts attempts 0 0 0

/-- The text-mode prompt template `PROMPT_TEMPLATE_TEXT` of
`extractor.py` (braces written with escapes). -/
def PROMPT_TEMPLATE_TEXT : String :=
  "\nYou are an expert materials scientist. Analyze the provided text from a scientific paper.\nExtract the synthesis conditions for the target material.\nReturn ONLY a valid JSON object with the following structure, no other text:\n\x7b\n    \"target_material\": \"Name of the material synthesized\",\n    \"method_type\": \"e.g., Sol-gel, Hydrothermal, Solid-state\",\n    \"description\": \"Brief summary of the procedure\",\n    \"precursors\": [\n        \x7b\"name\": \"Precursor 1\", \"amount\": \"Value\", \"unit\": \"Unit\"\x7d,\n        ...\n    ],\n    \"conditions\": [\n        \x7b\"parameter\": \"Temperature\", \"value\": \"Value\", \"unit\": \"Unit\"\x7d,\n        \x7b\"parameter\": \"Time\", \"value\": \"Value\", \"unit\": \"Unit\"\x7d,\n        ...\n    ]\n\x7d\n"

/-- The request payload `_extract_llm` posts to the inference endpoint
in text mode (`images` is `None` when no images were supplied). -/
structure Payload where
  model : String
  prompt : String
  stream : Bool
  format : String
  images : Option (List String)
  keep_alive : Int
  num_ctx : ℕ
deriving DecidableEq, Repr

/-- Payload construction for text mode: the document text is truncated
to its first 4000 characters (`content[:4000]`) and appended to the
prompt template. -/
def textPayload (modelText : String) (keepAlive : Int) (numCtx : ℕ)
    (content : String) : Payload :=
  { model := modelText
    prompt := PROMPT_TEMPLATE_TEXT ++ "\nText:\n" ++ content.take 4000
    stream := false
    format := "json"
    images := none
    keep_alive := keepAlive
    num_ctx := numCtx }

/-! ## Hybrid merge (`main.process_paper`, step C) -/

/-- The vision-pass extraction result, as far as the merge consults it:
its `target_material` key (`none` when absent, e.g. an empty `\x7b\x7d`
result) and the rest of its payload, opaque to the merge. -/
structure VisionResult where
  target_material : Option String := none
  rest : List (String × String) := []
deriving DecidableEq, Repr

/-- The working record seeded by the text pass: its `target_material`
key, every other text-derived field (opaque to the merge), and the
`visual_evidence_data` slot. -/
structure HybridRecord where
  target_material : Option String := none
  otherFields : List (String × String) := []
  visual_evidence_data : Option VisionResult := none
deriving DecidableEq, Repr

/-- Truthiness of `vision_data.get('target_material')`: present and a
non-empty string. -/
def visionNamed (vd : VisionResult) : Bool :=
  match vd.target_material with
  | some s => s ≠ ""
  | none => false

/-- The merge performed by `process_paper` when relevant images survive
classification: attach the vision result under `visual_evidence_data`,
then adopt the vision target only if the text pass left the target as
`"Unknown"` and the vision value is truthy. -/
def mergeHybridVision (td : HybridRecord) (vd : VisionResult) :
    HybridRecord :=
  let d := { td with visual_evidence_data := some vd }
  if d.target_material = some "Unknown" && visionNamed vd then
    { d with target_material := vd.target_material }
  else d

/-! ## Helper lemmas -/

attribute [local semireducible] Rat.add Rat.mul Rat.sub Rat.inv Rat.ofScientific

theorem hasPre_append_self (a c : List Char) : hasPre a (a ++ c) = true := by
  induction a with
  | nil => rfl
  | cons x xs ih => simp [hasPre, ih]

theorem hasSubAux_nil_pat (l : List Char) : hasSubAux [] l = true := by
  cases l with
  | nil => rfl
  | cons x xs => simp [hasSubAux, hasPre]

theorem hasSubAux_append_left (a b c : List Char) :
    hasSubAux a (b ++ (a ++ c)) = true := by
  induction b with
  | nil =>
      cases a with
      | nil => simpa using hasSubAux_nil_pat c
      | cons x xs =>
          simp only [List.nil_append, hasSubAux, Bool.or_eq_true]
          exact Or.inl (hasPre_append_self _ _)
  | cons y ys ih => simp [hasSubAux, ih]

/-- A string always occurs as a substring of any surrounding
concatenation. -/
theorem strHasSub_sandwich (a b c : String) :
    strHasSub a (b ++ a ++ c) = true := by
  unfold strHasSub String.toList
  rw [String.data_append, String.data_append, List.append_assoc]
  exact hasSubAux_append_left _ _ _

/-! ## Claim theorems -/

/-- C8: unit tokens are canonicalized case-insensitively after trimming
via the fixed table, and unknown tokens pass through — but the table's
degree-Celsius key is the mojibake "Â°c" (U+00C2 U+00B0 c), not "°c"
(U+00B0 c): the token "°c" passes through unmapped, so a condition of
100 °C is left unconverted (unit "°c", value 100) instead of becoming
373.15 K.  This theorem evaluates the code at the failing input and at
every other table entry. -/
theorem C8_unit_table_mojibake :
    unitMapGet "c" = "celsius" ∧ unitMapGet "celsius" = "celsius" ∧
    unitMapGet "k" = "kelvin" ∧ unitMapGet "kelvin" = "kelvin" ∧
    unitMapGet "f" = "fahrenheit" ∧ unitMapGet "fahrenheit" = "fahrenheit" ∧
    unitMapGet "h" = "hours" ∧ unitMapGet "hr" = "hours" ∧
    unitMapGet "hours" = "hours" ∧
    unitMapGet "min" = "minutes" ∧ unitMapGet "m" = "minutes" ∧
    unitMapGet "minutes" = "minutes" ∧
    unitMapGet "s" = "seconds" ∧ unitMapGet "sec" = "seconds" ∧
    unitMapGet "seconds" = "seconds" ∧
    unitMapGet "d" = "days" ∧ unitMapGet "days" = "days" ∧
    unitMapGet "pa" = "pa" ∧
    unitMapGet "°c" = "°c" ∧
    unitMapGet "Â°c" = "celsius" ∧
    pyStrip (pyLowerStr "°C") = "°c" ∧
    normalizeCondition ⟨"Temperature", "100", "°C"⟩ =
      .norm "temperature" 100 "°c" "100" "°c" := by
  decide

/-- C5: `_parse_value` strips every character except digits, `.` and `-`;
a two-part hyphen range with both parts non-empty parses to the mean of
its endpoints; "20-30" parses to 25.0, "-5" to -5.0 (leading minus, not a
range), "abc" fails to parse, and in that case `_normalize_condition`
passes the original condition dict through unmodified (and
`_normalize_data` keeps it). -/
theorem C5_parse_value :
    (∀ (s a b : String) (qa qb : ℚ),
       strHasSub "-" (cleanVal s) = true →
       pyStartsWith "-" (cleanVal s) = false →
       pySplit (cleanVal s) '-' = [a, b] →
       a ≠ "" → b ≠ "" →
       pyFloat a = some qa → pyFloat b = some qb →
       parseValue s = some ((qa + qb) / 2)) ∧
    parseValue "20-30" = some 25 ∧
    parseValue "-5" = some (-5) ∧
    parseValue "abc" = none ∧
    normalizeCondition ⟨"temperature", "abc", "C"⟩ =
      .orig ⟨"temperature", "abc", "C"⟩ ∧
    (normalizeData
        { conditions := some [⟨"temperature", "abc", "C"⟩] }).conditions =
      some [.orig ⟨"temperature", "abc", "C"⟩] := by
  refine ⟨?_, by decide, by decide, by decide, by decide, by decide⟩
  intro s a b qa qb h1 h2 h3 ha hb hqa hqb
  simp only [parseValue]
  rw [h1, h2, h3]
  simp [ha, hb, hqa, hqb]

/-- C5 witness: the general range rule applied to the concrete value
string "20-30". -/
theorem C5_parse_value_witness :
    parseValue "20-30" = some ((20 + 30) / 2) :=
  C5_parse_value.1 "20-30" "20" "30" 20 30 (by decide) (by decide)
    (by decide) (by decide) (by decide) (by decide) (by decide)

/-- A string occurs as a substring of surrounding character lists. -/
theorem hasSubAux_mid (a : String) (l r : List Char) :
    hasSubAux a.toList (l ++ a.toList ++ r) = true := by
  rw [List.append_assoc]
  exact hasSubAux_append_left _ _ _

theorem strHasSub_sandwich4 (a b c d : String) :
    strHasSub a (b ++ a ++ c ++ d) = true := by
  unfold strHasSub String.toList
  rw [String.data_append, String.data_append, String.data_append,
    List.append_assoc]
  exact hasSubAux_mid a _ _

/-- C1 counterexample: a normalized temperature of exactly 0 K is NOT
flagged invalid by the code (`val < 0` is strict), contradicting the
claim that 0 itself is included as invalid. -/
theorem C1_zero_kelvin_counterexample :
    (normalizeData
        { conditions := some [⟨"Temperature", "0", "K"⟩] }).physics_check_passed
        = true ∧
    (normalizeData { conditions := some [⟨"Temperature", "0", "K"⟩] }).warnings
        = [] ∧
    checkPhysicalValidity (.norm "temperature" 0 "K" "0" "k") = (true, "") := by
  decide

/-- C1 (amended): a temperature condition in K is flagged invalid exactly
when its value is strictly below 0 or strictly above 4000 (0 itself is
valid); a time/duration value strictly below 0 is flagged invalid; each
violation's warning mentions the value; and in `_normalize_data` each
violation appends its warning, clears `physics_check_passed`, and keeps
the condition, as witnessed on the spec's concrete instances
(-10 K invalid, 3999 K valid, 4001 K invalid, -30 min invalid). -/
theorem C1_physical_validity :
    (∀ (p : String) (v : ℚ) (ov ou : String),
       strHasSub "temp" p = true →
       ((checkPhysicalValidity (.norm p v "K" ov ou)).1 = false ↔
         (v < 0 ∨ 4000 < v))) ∧
    (∀ (p : String) (v : ℚ) (u ov ou : String),
       (strHasSub "time" p = true ∨ strHasSub "duration" p = true) →
       v < 0 →
       (checkPhysicalValidity (.norm p v u ov ou)).1 = false) ∧
    (∀ (p : String) (v : ℚ) (u ov ou : String),
       (checkPhysicalValidity (.norm p v u ov ou)).1 = false →
       strHasSub (fmtVal v)
           (checkPhysicalValidity (.norm p v u ov ou)).2 = true) ∧
    (normalizeData
        { conditions := some [⟨"Temperature", "-10", "K"⟩],
          warnings := [] }).physics_check_passed = false ∧
    (normalizeData { conditions := some [⟨"Temperature", "-10", "K"⟩] }).warnings
        = ["Impossible Temperature: -10.0 K"] ∧
    (normalizeData { conditions := some [⟨"Temperature", "-10", "K"⟩] }).conditions
        = some [.norm "temperature" (-10) "K" "-10" "k"] ∧
    (normalizeData
        { conditions := some [⟨"Temperature", "3999", "K"⟩] }).physics_check_passed
        = true ∧
    (normalizeData
        { conditions := some [⟨"Temperature", "4001", "K"⟩] }).physics_check_passed
        = false ∧
    (normalizeData
        { conditions := some [⟨"Time", "-30", "min"⟩] }).physics_check_passed
        = false ∧
    (normalizeData { conditions := some [⟨"Time", "-30", "min"⟩] }).warnings
        = ["Impossible Time: -30.0 min"] := by
  refine ⟨?_, ?_, ?_, by decide, by decide, by decide, by decide, by decide,
    by decide, by decide⟩
  · intro p v ov ou hp
    unfold checkPhysicalValidity
    dsimp only
    split_ifs with h1 h2 h3
    · simpa using Or.inl h1.2.2
    · simpa using Or.inr h2.2.2
    · exact absurd ⟨hp, rfl, h3.2⟩ h1
    · constructor
      · intro h
        simp at h
      · rintro (h | h)
        · exact absurd ⟨hp, rfl, h⟩ h1
        · exact absurd ⟨hp, rfl, h⟩ h2
  · intro p v u ov ou hd hv
    unfold checkPhysicalValidity
    dsimp only
    split_ifs with h1 h2 h3
    · rfl
    · rfl
    · rfl
    · exact absurd ⟨hd, hv⟩ h3
  · intro p v u ov ou h
    unfold checkPhysicalValidity at h ⊢
    dsimp only at h ⊢
    split_ifs at h ⊢ with h1 h2 h3 <;>
      first
        | exact strHasSub_sandwich _ _ _
        | exact strHasSub_sandwich4 _ _ _ _

/-- C1 witness: the amended validity rule applied at -10 K, 0 K and a
-30 min time condition. -/
theorem C1_physical_validity_witness :
    (checkPhysicalValidity (.norm "temperature" (-10) "K" "-10" "k")).1
        = false ∧
    (checkPhysicalValidity (.norm "time" (-30) "min" "-30" "min")).1
        = false := by
  constructor
  · exact (C1_physical_validity.1 "temperature" (-10) "-10" "k"
      (by decide)).mpr (Or.inl (by norm_num))
  · exact C1_physical_validity.2.1 "time" (-30) "min" "-30" "min"
      (Or.inl (by decide)) (by norm_num)

/-- C2: for a condition whose lowered parameter contains "temp",
celsius values become `v + 273.15` and fahrenheit values
`(v - 32) * 5/9 + 273.15` with unit token `K`; for one whose parameter
contains "time" or "duration", hours are multiplied by 60, seconds
divided by 60 and days multiplied by 1440 with unit token `min`; all
results are rounded to 2 decimals; and concretely 100 °C → 373.15 K,
32 °F → 273.15 K, 2 h → 120 min, 3600 s → 60 min, 1 d → 1440 min. -/
theorem C2_unit_conversion :
    (∀ (c : RawCond) (v : ℚ),
       parseValue c.value = some v →
       strHasSub "temp" (pyLowerStr c.parameter) = true →
       unitMapGet (pyStrip (pyLowerStr c.unit)) = "celsius" →
       normalizeCondition c =
         .norm (pyLowerStr c.parameter) (round2 (v + 27315/100)) "K"
           c.value (pyStrip (pyLowerStr c.unit))) ∧
    (∀ (c : RawCond) (v : ℚ),
       parseValue c.value = some v →
       strHasSub "temp" (pyLowerStr c.parameter) = true →
       unitMapGet (pyStrip (pyLowerStr c.unit)) = "fahrenheit" →
       normalizeCondition c =
         .norm (pyLowerStr c.parameter) (round2 ((v - 32) * 5 / 9 + 27315/100))
           "K" c.value (pyStrip (pyLowerStr c.unit))) ∧
    (∀ (c : RawCond) (v : ℚ),
       parseValue c.value = some v →
       strHasSub "temp" (pyLowerStr c.parameter) = false →
       (strHasSub "time" (pyLowerStr c.parameter) = true ∨
         strHasSub "duration" (pyLowerStr c.parameter) = true) →
       unitMapGet (pyStrip (pyLowerStr c.unit)) = "hours" →
       normalizeCondition c =
         .norm (pyLowerStr c.parameter) (round2 (v * 60)) "min"
           c.value (pyStrip (pyLowerStr c.unit))) ∧
    (∀ (c : RawCond) (v : ℚ),
       parseValue c.value = some v →
       strHasSub "temp" (pyLowerStr c.parameter) = false →
       (strHasSub "time" (pyLowerStr c.parameter) = true ∨
         strHasSub "duration" (pyLowerStr c.parameter) = true) →
       unitMapGet (pyStrip (pyLowerStr c.unit)) = "seconds" →
       normalizeCondition c =
         .norm (pyLowerStr c.parameter) (round2 (v / 60)) "min"
           c.value (pyStrip (pyLowerStr c.unit))) ∧
    (∀ (c : RawCond) (v : ℚ),
       parseValue c.value = some v →
       strHasSub "temp" (pyLowerStr c.parameter) = false →
       (strHasSub "time" (pyLowerStr c.parameter) = true ∨
         strHasSub "duration" (pyLowerStr c.parameter) = true) →
       unitMapGet (pyStrip (pyLowerStr c.unit)) = "days" →
       normalizeCondition c =
         .norm (pyLowerStr c.parameter) (round2 (v * 1440)) "min"
           c.value (pyStrip (pyLowerStr c.unit))) ∧
    normalizeCondition ⟨"Temperature", "100", "C"⟩ =
      .norm "temperature" (37315/100) "K" "100" "c" ∧
    normalizeCondition ⟨"Temperature", "32", "F"⟩ =
      .norm "temperature" (27315/100) "K" "32" "f" ∧
    normalizeCondition ⟨"Time", "2", "h"⟩ =
      .norm "time" 120 "min" "2" "h" ∧
    normalizeCondition ⟨"Time", "3600", "s"⟩ =
      .norm "time" 60 "min" "3600" "s" ∧
    normalizeCondition ⟨"Time", "1", "d"⟩ =
      .norm "time" 1440 "min" "1" "d" := by
  refine ⟨?_, ?_, ?_, ?_, ?_, by decide, by decide, by decide, by decide,
    by decide⟩
  · intro c v hv hp hu
    unfold normalizeCondition
    dsimp only
    rw [hv, hu, hp]
    simp
  · intro c v hv hp hu
    unfold normalizeCondition
    dsimp only
    rw [hv, hu, hp]
    simp
  · intro c v hv hp hd hu
    unfold normalizeCondition
    dsimp only
    rw [hv, hu, hp]
    rcases hd with hd | hd <;> rw [hd] <;> simp
  · intro c v hv hp hd hu
    unfold normalizeCondition
    dsimp only
    rw [hv, hu, hp]
    rcases hd with hd | hd <;> rw [hd] <;> simp
  · intro c v hv hp hd hu
    unfold normalizeCondition
    dsimp only
    rw [hv, hu, hp]
    rcases hd with hd | hd <;> rw [hd] <;> simp

/-- C2 witness: the celsius rule applied to the concrete condition
(Temperature, "100", "C"). -/
theorem C2_unit_conversion_witness :
    normalizeCondition ⟨"Temperature", "100", "C"⟩ =
      .norm (pyLowerStr "Temperature") (round2 (100 + 27315/100)) "K"
        "100" (pyStrip (pyLowerStr "C")) :=
  C2_unit_conversion.1 ⟨"Temperature", "100", "C"⟩ 100
    (by decide) (by decide) (by decide)

/-- Elements all satisfying the predicate are skipped by `dropWhile`. -/
theorem dropWhile_append_all {p : Char → Bool} :
    ∀ (xs ys : List Char), (∀ x ∈ xs, p x = true) →
      List.dropWhile p (xs ++ ys) = List.dropWhile p ys := by
  intro xs ys h
  induction xs with
  | nil => rfl
  | cons x xt ih =>
      rw [List.cons_append, List.dropWhile_cons_of_pos (h x (by simp))]
      exact ih (fun y hy => h y (by simp [hy]))

theorem takeToLast_append (mid post : List Char) (h : '\x7d' ∉ post) :
    takeToLast '\x7d' (mid ++ '\x7d' :: post) = mid ++ ['\x7d'] := by
  have hall : ∀ x ∈ post.reverse, decide (x ≠ '\x7d') = true := by
    intro x hx
    simp only [List.mem_reverse] at hx
    simp only [decide_eq_true_eq]
    exact fun hxe => h (hxe ▸ hx)
  unfold takeToLast
  rw [List.reverse_append, List.reverse_cons, List.append_assoc,
    dropWhile_append_all post.reverse _ hall,
    List.singleton_append, List.dropWhile_cons_of_neg (by simp),
    List.reverse_cons, List.reverse_reverse]

theorem contains_append_cons (c : Char) (l r : List Char) :
    (l ++ c :: r).contains c = true := by
  simp

theorem reSearchBrace_none (l : List Char) (h : '\x7b' ∉ l) :
    reSearchBrace l = none := by
  induction l with
  | nil => rfl
  | cons c cs ih =>
      have hc : c ≠ '\x7b' := fun he => h (he ▸ List.mem_cons_self c cs)
      unfold reSearchBrace matchBraceAt
      dsimp only
      rw [if_neg (fun hand => hc hand.1)]
      exact ih (fun hm => h (List.mem_cons_of_mem c hm))

/-- C3: the Gateway's JSON-span recovery takes the span from the first
opening brace of the response text to its last closing brace (the
regex's greedy match), and the spec's concrete response body parses to
the expected one-key object. -/
theorem C3_json_span_recovery :
    (∀ pre mid post : List Char, '\x7b' ∉ pre → '\x7d' ∉ post →
       reSearchBrace (pre ++ '\x7b' :: (mid ++ '\x7d' :: post)) =
         some ('\x7b' :: (mid ++ ['\x7d']))) ∧
    (∀ l : List Char, '\x7b' ∉ l → reSearchBrace l = none) ∧
    extractJson "Sure! Here is the result: \x7b\"target_material\": \"ZIF-8\"\x7d" =
      some (.obj [("target_material", .str "ZIF-8")]) := by
  refine ⟨?_, reSearchBrace_none, by rfl⟩
  intro pre mid post hpre hpost
  induction pre with
  | nil =>
      rw [List.nil_append]
      unfold reSearchBrace matchBraceAt
      dsimp only
      rw [if_pos ⟨rfl, contains_append_cons _ _ _⟩,
        takeToLast_append mid post hpost]
  | cons c cs ih =>
      have hc : c ≠ '\x7b' := fun he => hpre (he ▸ List.mem_cons_self c cs)
      rw [List.cons_append]
      unfold reSearchBrace matchBraceAt
      dsimp only
      rw [if_neg (fun hand => hc hand.1)]
      exact ih (fun hm => hpre (List.mem_cons_of_mem c hm))

/-- C3 witness: the span characterization applied to a concrete response
with commentary before and after the braces. -/
theorem C3_json_span_recovery_witness :
    reSearchBrace ['x', '\x7b', 'A', '\x7d', 'y'] =
      some ['\x7b', 'A', '\x7d'] :=
  C3_json_span_recovery.1 ['x'] ['A'] ['y'] (by decide) (by decide)

/-- If every attempt from index `i` on takes the exception path, the
loop returns the empty object, issues one request per remaining attempt,
and sleeps between consecutive attempts. -/
theorem runAttempts_err (oracle : ℕ → LlmAttempt) (attempts : ℕ) :
    ∀ (fuel i reqs slps : ℕ), attempts - i ≤ fuel →
      (∀ k, i ≤ k → k < attempts → attemptStep (oracle k) = .err) →
      runAttempts oracle attempts fuel i reqs slps =
        ⟨emptyObj, reqs + (attempts - i), slps + (attempts - 1 - i)⟩ := by
  intro fuel
  induction fuel with
  | zero =>
      intro i reqs slps hf _
      have h0 : attempts - i = 0 := Nat.le_zero.mp hf
      have h1 : attempts - 1 - i = 0 := by omega
      rw [h0, h1]
      rfl
  | succ fuel ih =>
      intro i reqs slps hf hk
      by_cases hi : i < attempts
      · have hstep := hk i le_rfl hi
        unfold runAttempts
        rw [if_pos hi, hstep]
        dsimp only
        by_cases hlast : i < attempts - 1
        · rw [if_pos hlast,
            ih (i + 1) (reqs + 1) (slps + 1) (by omega)
              (fun k hk1 hk2 => hk k (by omega) hk2)]
          simp only [LoopOut.mk.injEq]
          exact ⟨trivial, by omega, by omega⟩
        · rw [if_neg hlast]
          simp only [LoopOut.mk.injEq]
          exact ⟨trivial, by omega, by omega⟩
      · unfold runAttempts
        rw [if_neg hi]
        simp only [LoopOut.mk.injEq]
        exact ⟨trivial, by omega, by omega⟩

/-- If every attempt from index `i` on takes the no-JSON-span path, the
loop returns the empty object and issues one request per remaining
attempt without ever sleeping. -/
theorem runAttempts_noJson (oracle : ℕ → LlmAttempt) (attempts : ℕ) :
    ∀ (fuel i reqs slps : ℕ), attempts - i ≤ fuel →
      (∀ k, i ≤ k → k < attempts → attemptStep (oracle k) = .noJson) →
      runAttempts oracle attempts fuel i reqs slps =
        ⟨emptyObj, reqs + (attempts - i), slps⟩ := by
  intro fuel
  induction fuel with
  | zero =>
      intro i reqs slps hf _
      have h0 : attempts - i = 0 := Nat.le_zero.mp hf
      rw [h0]
      rfl
  | succ fuel ih =>
      intro i reqs slps hf hk
      by_cases hi : i < attempts
      · have hstep := hk i le_rfl hi
        unfold runAttempts
        rw [if_pos hi, hstep]
        dsimp only
        by_cases hlast : i < attempts - 1
        · rw [if_pos hlast,
            ih (i + 1) (reqs + 1) slps (by omega)
              (fun k hk1 hk2 => hk k (by omega) hk2)]
          simp only [LoopOut.mk.injEq]
          exact ⟨trivial, by omega, trivial⟩
        · rw [if_neg hlast]
          simp only [LoopOut.mk.injEq]
          exact ⟨trivial, by omega, trivial⟩
      · unfold runAttempts
        rw [if_neg hi]
        simp only [LoopOut.mk.injEq]
        exact ⟨trivial, by omega, trivial⟩

/-- C4: when every request fails at transport or with a non-2xx status,
`_extract_llm` makes exactly the configured number of attempts, returns
the empty object rather than raising, and issues no request beyond the
last attempt. -/
theorem C4_retry_exhaustion (oracle : ℕ → LlmAttempt) (attempts : ℕ)
    (h : ∀ k, k < attempts → oracle k = .transportFail) :
    (extractLlmLoop oracle attempts).result = emptyObj ∧
    (extractLlmLoop oracle attempts).requests = attempts := by
  have hstep : ∀ k, 0 ≤ k → k < attempts → attemptStep (oracle k) = .err :=
    fun k _ hk => by rw [h k hk] ; rfl
  unfold extractLlmLoop
  rw [runAttempts_err oracle attempts attempts 0 0 0 (by omega) hstep]
  refine ⟨rfl, ?_⟩
  show 0 + (attempts - 0) = attempts
  omega

/-- C4 witness: a stub service that always fails transport, with the
default three configured attempts. -/
theorem C4_retry_exhaustion_witness :
    (extractLlmLoop (fun _ => .transportFail) 3).result = emptyObj ∧
    (extractLlmLoop (fun _ => .transportFail) 3).requests = 3 :=
  C4_retry_exhaustion (fun _ => .transportFail) 3 (fun _ _ => rfl)

/-- C6 counterexample: with three attempts, a service whose responses
always arrive but never contain a JSON span causes zero inter-attempt
sleeps, whereas a service that always fails transport causes two — the
no-JSON case is NOT retried "with the same fixed inter-attempt delay". -/
theorem C6_no_delay_counterexample :
    (extractLlmLoop (fun _ => .ok "no json span here") 3).sleeps = 0 ∧
    (extractLlmLoop (fun _ => .transportFail) 3).sleeps = 2 ∧
    (extractLlmLoop (fun _ => .ok "no json span here") 3).requests = 3 ∧
    (extractLlmLoop (fun _ => .ok "no json span here") 3).result = emptyObj :=
  ⟨rfl, rfl, rfl, rfl⟩

/-- C6 (amended): a transport-successful response with no parseable JSON
span is retried up to the same configured attempt count and ends in the
same empty object, but the re-attempt happens immediately, without the
fixed inter-attempt delay that transport failures incur. -/
theorem C6_no_json_retry (oracle : ℕ → LlmAttempt) (attempts : ℕ)
    (h : ∀ k, k < attempts → ∃ t, oracle k = .ok t ∧
      reSearchBrace t.toList = none) :
    (extractLlmLoop oracle attempts).result = emptyObj ∧
    (extractLlmLoop oracle attempts).requests = attempts ∧
    (extractLlmLoop oracle attempts).sleeps = 0 := by
  have hstep : ∀ k, 0 ≤ k → k < attempts → attemptStep (oracle k) = .noJson := by
    intro k _ hk
    obtain ⟨t, hok, hspan⟩ := h k hk
    rw [hok]
    unfold attemptStep
    dsimp only
    rw [hspan]
  unfold extractLlmLoop
  rw [runAttempts_noJson oracle attempts attempts 0 0 0 (by omega) hstep]
  refine ⟨rfl, ?_, rfl⟩
  show 0 + (attempts - 0) = attempts
  omega

/-- C6 witness: the amended no-JSON retry behaviour at a concrete
always-commentary service with three attempts. -/
theorem C6_no_json_retry_witness :
    (extractLlmLoop (fun _ => .ok "just words") 3).result = emptyObj ∧
    (extractLlmLoop (fun _ => .ok "just words") 3).requests = 3 ∧
    (extractLlmLoop (fun _ => .ok "just words") 3).sleeps = 0 :=
  C6_no_json_retry (fun _ => .ok "just words") 3
    (fun _ _ => ⟨"just words", rfl, rfl⟩)

/-- C9 counterexample: `_normalize_data` resets the `warnings` key to a
fresh empty list, so a record entering the normalization stage with a
pre-existing warning leaves the stage without it — the input warning
sequence is not a prefix of the output. -/
theorem C9_warnings_reset_counterexample :
    (normalizeData { warnings := ["w"] }).warnings = [] ∧
    (normalizeData { warnings := ["w"] }).warnings.take 1 ≠ ["w"] := by
  decide

/-- C9 (amended): the normalization stage initializes `warnings` to a
fresh list independent of any pre-existing warnings (its output is the
same whether the input carried warnings or not), while the chemical
identity resolution and reaction plausibility stages are append-only:
their input warnings are a prefix of their output warnings. -/
theorem C9_warnings_append_only :
    (∀ r : RawRecord,
       normalizeData { r with warnings := [] } = normalizeData r) ∧
    (∀ (pubchem : String → Option PubChemData) (d : NormRecord),
       ∃ t, (validateChemicals pubchem d).warnings = d.warnings ++ t) ∧
    (∀ (llm : LlmOutcome) (d d' : NormRecord),
       validateReactionLogic llm d = some d' →
       ∃ t, d'.warnings = d.warnings ++ t) := by
  refine ⟨fun r => rfl, ?_, ?_⟩
  · intro pubchem d
    unfold validateChemicals
    cases hp : d.precursors with
    | none => exact ⟨[], by simp⟩
    | some ps => exact ⟨_, rfl⟩
  · intro llm d d' h
    unfold validateReactionLogic at h
    by_cases hg : (((d.precursors.getD []).map Precursor.name).isEmpty
        || decide (d.target_material.getD "Unknown" = "Unknown")) = true
    · rw [if_pos hg] at h
      obtain rfl : d = d' := Option.some.inj h
      exact ⟨[], by simp⟩
    · rw [if_neg hg] at h
      by_cases hn : ((d.precursors.getD []).map Precursor.name).any
          Option.isNone = true
      · rw [if_pos hn] at h
        exact absurd h (by simp)
      · rw [if_neg hn] at h
        cases llm with
        | exc =>
            obtain rfl : d = d' := Option.some.inj h
            exact ⟨[], by simp⟩
        | non200 =>
            obtain rfl : d = d' := Option.some.inj h
            exact ⟨[], by simp⟩
        | ok ld =>
            dsimp only at h
            have h' := (Option.some.inj h).symm
            subst h'
            refine ⟨(if ld.valid.getD false = false then
                ["Chemical Logic Error: " ++
                  (match ld.reason with | some s => s | none => "None")]
              else []) ++
              (if ld.missing_elements.getD [] ≠ [] then
                ["Missing Elements: " ++
                  fmtPyStrList (ld.missing_elements.getD [])]
              else []), ?_⟩
            split_ifs <;> simp

/-- C9 witness: the reaction-logic stage applied to a record with no
precursors (the stage returns it unchanged, trivially appending
nothing). -/
theorem C9_warnings_append_only_witness :
    ∃ t, (({} : NormRecord)).warnings = ({} : NormRecord).warnings ++ t :=
  C9_warnings_append_only.2.2 .exc {} {} rfl

/-- C7: the hybrid merge is additive — every text-derived field other
than `target_material` is preserved, the vision result is attached under
`visual_evidence_data`, and the vision target is adopted exactly when
the text target is "Unknown" and the vision target is a present,
non-empty string; in particular an "Unknown" text target with a vision
target "MOF-5" merges to "MOF-5", and a concrete text target is never
overridden. -/
theorem C7_hybrid_merge :
    (∀ (td : HybridRecord) (vd : VisionResult),
       (mergeHybridVision td vd).otherFields = td.otherFields ∧
       (mergeHybridVision td vd).visual_evidence_data = some vd) ∧
    (∀ (td : HybridRecord) (vd : VisionResult),
       td.target_material ≠ some "Unknown" →
       (mergeHybridVision td vd).target_material = td.target_material) ∧
    (∀ (td : HybridRecord) (vd : VisionResult),
       td.target_material = some "Unknown" → visionNamed vd = false →
       (mergeHybridVision td vd).target_material = td.target_material) ∧
    (∀ (td : HybridRecord) (vd : VisionResult) (s : String),
       td.target_material = some "Unknown" → vd.target_material = some s →
       s ≠ "" →
       (mergeHybridVision td vd).target_material = some s) ∧
    (mergeHybridVision { target_material := some "Unknown" }
        { target_material := some "MOF-5" }).target_material =
      some "MOF-5" := by
  refine ⟨?_, ?_, ?_, ?_, by decide⟩
  · intro td vd
    unfold mergeHybridVision
    dsimp only
    split_ifs <;> exact ⟨rfl, rfl⟩
  · intro td vd hne
    unfold mergeHybridVision
    dsimp only
    rw [if_neg]
    simp only [Bool.and_eq_true, decide_eq_true_eq]
    rintro ⟨h1, -⟩
    exact hne h1
  · intro td vd hu hv
    unfold mergeHybridVision
    dsimp only
    rw [if_neg]
    simp only [Bool.and_eq_true, decide_eq_true_eq]
    rintro ⟨-, h2⟩
    rw [hv] at h2
    cases h2
  · intro td vd s hu hv hs
    unfold mergeHybridVision
    dsimp only
    rw [if_pos, hv]
    simp only [Bool.and_eq_true, decide_eq_true_eq]
    refine ⟨hu, ?_⟩
    unfold visionNamed
    rw [hv]
    exact decide_eq_true hs

/-- C7 witness: gap fill and no-override at concrete records. -/
theorem C7_hybrid_merge_witness :
    (mergeHybridVision { target_material := some "Unknown" }
        { target_material := some "MOF-5" }).target_material =
      some "MOF-5" ∧
    (mergeHybridVision { target_material := some "ZIF-8" }
        { target_material := some "MOF-5" }).target_material =
      some "ZIF-8" :=
  ⟨C7_hybrid_merge.2.2.2.1 { target_material := some "Unknown" }
      { target_material := some "MOF-5" } "MOF-5" rfl rfl (by decide),
    C7_hybrid_merge.2.1 { target_material := some "ZIF-8" }
      { target_material := some "MOF-5" } (by decide)⟩

/-- C10: in text mode only the first 4000 characters of the document
text reach the prompt, so two texts agreeing on their first 4000
characters produce identical request payloads. -/
theorem C10_text_truncation (model : String) (keepAlive : Int)
    (numCtx : ℕ) (t1 t2 : String) (h : t1.take 4000 = t2.take 4000) :
    textPayload model keepAlive numCtx t1 =
      textPayload model keepAlive numCtx t2 := by
  unfold textPayload
  rw [h]

/-- C10 witness: two concrete texts with equal 4000-character prefixes
yield the same payload. -/
theorem C10_text_truncation_witness :
    textPayload "qwen3:8b" (-1) 2048 "synthesis of ZIF-8" =
      textPayload "qwen3:8b" (-1) 2048 "synthesis of ZIF-8" :=
  C10_text_truncation "qwen3:8b" (-1) 2048 _ _ rfl

end Scraper
